import Mathlib

/-!
Verification of the mail-forwarding relay (`main.py`, `email_list_parser.py`).

The Python source is shallowly embedded: every function of the repository
is translated into an executable Lean definition, exceptions become an
explicit error type threaded through `Except`, and the remote Gmail API is
an explicit environment record.  All definitions are written from the
source code; theorems at the end of the file settle the frozen claims.
-/

namespace EzFund

/-- The Python exception classes that the source can raise or catch.
`binasciiError` and `unicodeDecodeError` are subclasses of `ValueError`
in Python; none of them is a `RuntimeError`, and only `httpError` models
`googleapiclient.errors.HttpError`. -/
inductive PyErr : Type where
  | attributeError          -- e.g. `None.split("/")`
  | valueError              -- e.g. unpacking the wrong number of values
  | binasciiError           -- `binascii.Error` from `base64` decoding
  | unicodeDecodeError      -- `bytes.decode("utf-8")` failure
  | unicodeEncodeError      -- `str.encode("ASCII")` failure
  | typeError               -- e.g. iterating over `None`
  | keyError                -- missing dictionary key
  | indexError              -- list index out of range
  | httpError               -- `googleapiclient.errors.HttpError`
  | runtimeError            -- `RuntimeError`
  deriving DecidableEq, Repr

/-- Which exceptions an `except RuntimeError` clause catches. -/
def PyErr.isRuntimeError : PyErr → Bool
  | .runtimeError => true
  | _ => false

/-- Which exceptions an `except HttpError` clause catches. -/
def PyErr.isHttpError : PyErr → Bool
  | .httpError => true
  | _ => false

/-! ### Model of `base64.urlsafe_b64decode` / `urlsafe_b64encode`

`urlsafe_b64decode` first translates `-`/`_` to `+`/`/` and then calls
`b64decode` with `validate=False`, which discards characters outside the
base64 alphabet, requires the remaining length to be a multiple of four,
and decodes four characters to three bytes (with `=` padding only at the
end of the final group). -/

/-- Value of one base64 character under the url-safe alphabet (the
standard alphabet plus `-` and `_`, which `urlsafe_b64decode` translates
to `+` and `/` before decoding). -/
def b64Val (c : Char) : Option Nat :=
  if 'A' ≤ c ∧ c ≤ 'Z' then some (c.toNat - 'A'.toNat)
  else if 'a' ≤ c ∧ c ≤ 'z' then some (c.toNat - 'a'.toNat + 26)
  else if '0' ≤ c ∧ c ≤ '9' then some (c.toNat - '0'.toNat + 52)
  else if c = '+' ∨ c = '-' then some 62
  else if c = '/' ∨ c = '_' then some 63
  else none

/-- One base64 quantum: four characters → up to three bytes.  `=` may only
pad the tail of the last quantum. -/
def b64Group (isLast : Bool) : List Char → Option (List Nat)
  | [c1, c2, c3, c4] => do
    let v1 ← b64Val c1
    let v2 ← b64Val c2
    if c3 = '=' then
      if isLast ∧ c4 = '=' then some [(v1 * 4 + v2 / 16) % 256] else none
    else do
      let v3 ← b64Val c3
      if c4 = '=' then
        if isLast then some [(v1 * 4 + v2 / 16) % 256, (v2 * 16 + v3 / 4) % 256] else none
      else do
        let v4 ← b64Val c4
        some [(v1 * 4 + v2 / 16) % 256, (v2 * 16 + v3 / 4) % 256, (v3 * 64 + v4) % 256]
  | _ => none

/-- Decode a list of base64 characters (already filtered to the alphabet
plus `=`), four at a time. -/
def b64Decode : List Char → Option (List Nat)
  | [] => some []
  | c1 :: c2 :: c3 :: c4 :: rest => do
    let bytes ← b64Group rest.isEmpty [c1, c2, c3, c4]
    let more ← b64Decode rest
    some (bytes ++ more)
  | _ => none

/-- `base64.urlsafe_b64decode(s)`: discard characters outside the
alphabet, fail (`binascii.Error`) unless the remaining length is a
multiple of four and the padding is well placed, otherwise produce the
decoded bytes. -/
def urlsafeB64decode (s : String) : Option (List Nat) :=
  let cs := s.data.filter (fun c => (b64Val c).isSome ∨ c = '=')
  if cs.length % 4 = 0 then b64Decode cs else none

/-- Character of one 6-bit value under the url-safe alphabet. -/
def b64CharOf (v : Nat) : Char :=
  if v < 26 then Char.ofNat ('A'.toNat + v)
  else if v < 52 then Char.ofNat ('a'.toNat + v - 26)
  else if v < 62 then Char.ofNat ('0'.toNat + v - 52)
  else if v = 62 then '-'
  else '_'

/-- `base64.urlsafe_b64encode`: three bytes → four characters, with `=`
padding for a short final group. -/
def urlsafeB64encode : List Nat → List Char
  | [] => []
  | [b1] =>
    [b64CharOf (b1 / 4), b64CharOf (b1 % 4 * 16), '=', '=']
  | [b1, b2] =>
    [b64CharOf (b1 / 4), b64CharOf (b1 % 4 * 16 + b2 / 16), b64CharOf (b2 % 16 * 4), '=']
  | b1 :: b2 :: b3 :: rest =>
    b64CharOf (b1 / 4) :: b64CharOf (b1 % 4 * 16 + b2 / 16) ::
      b64CharOf (b2 % 16 * 4 + b3 / 64) :: b64CharOf (b3 % 64) :: urlsafeB64encode rest

/-! ### Model of `bytes.decode("utf-8")` and `str.encode(...)` -/

/-- Is `b` a UTF-8 continuation byte (`0x80`–`0xBF`)? -/
def isCont (b : Nat) : Bool := 0x80 ≤ b ∧ b < 0xC0

/-- Strict UTF-8 decoding of a byte list to code points, rejecting
overlong encodings, surrogates and out-of-range values, as Python's
`bytes.decode("utf-8")` does. -/
def utf8Decode : List Nat → Option (List Nat)
  | [] => some []
  | b1 :: rest =>
    if b1 < 0x80 then (utf8Decode rest).map (b1 :: ·)
    else if b1 < 0xC2 then none          -- stray continuation or overlong lead
    else if b1 < 0xE0 then
      match rest with
      | b2 :: rest2 =>
        if isCont b2 then (utf8Decode rest2).map (((b1 - 0xC0) * 64 + (b2 - 0x80)) :: ·)
        else none
      | _ => none
    else if b1 < 0xF0 then
      match rest with
      | b2 :: b3 :: rest2 =>
        if isCont b2 ∧ isCont b3 ∧
            (b1 ≠ 0xE0 ∨ 0xA0 ≤ b2) ∧ (b1 ≠ 0xED ∨ b2 < 0xA0) then
          (utf8Decode rest2).map (((b1 - 0xE0) * 4096 + (b2 - 0x80) * 64 + (b3 - 0x80)) :: ·)
        else none
      | _ => none
    else if b1 ≤ 0xF4 then
      match rest with
      | b2 :: b3 :: b4 :: rest2 =>
        if isCont b2 ∧ isCont b3 ∧ isCont b4 ∧
            (b1 ≠ 0xF0 ∨ 0x90 ≤ b2) ∧ (b1 ≠ 0xF4 ∨ b2 < 0x90) then
          (utf8Decode rest2).map
            (((b1 - 0xF0) * 262144 + (b2 - 0x80) * 4096 + (b3 - 0x80) * 64 + (b4 - 0x80)) :: ·)
        else none
      | _ => none
    else none

/-- Code points produced by `utf8Decode` are Unicode scalar values, so
they can be packed into a `String`. -/
def stringOfCodepoints (cps : List Nat) : String :=
  ⟨cps.map Char.ofNat⟩

/-- `str.encode("ASCII")`: fails with `UnicodeEncodeError` when a
character is outside the 7-bit range. -/
def pyEncodeAscii (s : String) : Except PyErr String :=
  if s.data.all (fun c => c.toNat < 128) then .ok s else .error .unicodeEncodeError

/-- Python's `str.split(sep)` for a one-character separator, over the
character list: split at every occurrence of `sep`; the empty string
yields `[""]`. -/
def splitCharList (sep : Char) : List Char → List (List Char)
  | [] => [[]]
  | c :: rest =>
    let groups := splitCharList sep rest
    if c = sep then [] :: groups
    else
      match groups with
      | [] => [[c]]
      | g :: gs => (c :: g) :: gs

/-- Python's `str.split(sep)` for a one-character separator. -/
def pySplit (sep : Char) (s : String) : List String :=
  (splitCharList sep s.data).map fun cs => ⟨cs⟩

/-- Python's `str.strip()`: drop ASCII whitespace from both ends. -/
def pyStrip (s : String) : String :=
  ⟨(s.data.dropWhile (·.isWhitespace)).reverse.dropWhile (·.isWhitespace) |>.reverse⟩

/-! ### The Gmail `MessagePart` JSON object and `parse_email_body` -/

/-- A Gmail API `MessagePart` JSON object, as consumed by
`parse_email_body`.  Optional fields model absent JSON keys; `hasParts`
records whether the `"parts"` key is present at all (when it is absent,
`message.get("parts")` yields `None` in the source). -/
inductive GmailPart : Type where
  | mk (mimeType : Option String) (filename : Option String)
       (bodyData : Option String) (bodyAttachmentId : Option String)
       (hasParts : Bool) (parts : List GmailPart) : GmailPart
  deriving Repr

def GmailPart.mimeType : GmailPart → Option String
  | .mk mt _ _ _ _ _ => mt

def GmailPart.filename : GmailPart → Option String
  | .mk _ fn _ _ _ _ => fn

def GmailPart.bodyData : GmailPart → Option String
  | .mk _ _ bd _ _ _ => bd

def GmailPart.bodyAttachmentId : GmailPart → Option String
  | .mk _ _ _ aid _ _ => aid

def GmailPart.hasParts : GmailPart → Bool
  | .mk _ _ _ _ hp _ => hp

def GmailPart.parts : GmailPart → List GmailPart
  | .mk _ _ _ _ _ ps => ps

/-- The MIME object returned by `parse_email_body`: `MIMEText`, a
`MIMEBase` carrying an attachment payload and `Content-Disposition`
header, or a `MIMEBase` container with attached children. -/
inductive Mime : Type where
  | text (subtype : String) (content : String)
  | attachment (maintype subtype : String) (payload : List Nat) (filename : String)
  | container (maintype subtype : String) (children : List Mime)
  deriving Repr

/-- `message.get("mimeType").split("/")` followed by unpacking into
exactly two variables: `AttributeError` when the key is absent (`None`
has no `split`), `ValueError` when the split does not yield exactly two
pieces. -/
def splitMime : Option String → Except PyErr (String × String)
  | none => .error .attributeError
  | some s =>
    match pySplit '/' s with
    | [t, st] => .ok (t, st)
    | _ => .error .valueError

/-- `dict["key"]` on an optional field: `KeyError` when absent. -/
def pySubscript (v : Option String) : Except PyErr String :=
  match v with
  | some s => .ok s
  | none => .error .keyError

/-- Python truthiness of `message.get("filename")`: `None` and the empty
string are falsy. -/
def truthy : Option String → Bool
  | none => false
  | some s => s ≠ ""

/-- The attachment store behind
`users().messages().attachments().get(...)`: keyed by message id and
attachment id, yields the attachment's `data` field or raises. -/
def AttachmentStore : Type := String → String → Except PyErr String

mutual

/-- `parse_email_body(message, account_client, msg_id)`: split the
declared MIME type, then branch — text first, filename second, container
fallback — reconstructing a (potentially nested) MIME object. -/
def parseEmailBody (att : AttachmentStore) (msgId : String) :
    GmailPart → Except PyErr Mime
  | .mk mt fn bd aid hp ps => do
    let (mimeTy, mimeSub) ← splitMime mt
    if mimeTy = "text" then do
      -- content = urlsafe_b64decode(message['body']['data'].encode("ASCII")).decode("utf-8")
      let data ← pySubscript bd
      let ascii ← pyEncodeAscii data
      match urlsafeB64decode ascii with
      | none => .error .binasciiError
      | some bytes =>
        match utf8Decode bytes with
        | none => .error .unicodeDecodeError
        | some cps => .ok (.text mimeSub (stringOfCodepoints cps))
    else if truthy fn then do
      let data ←
        match bd with
        | some d => pure d
        | none => do
          let attachmentId ← pySubscript aid
          att msgId attachmentId
      match urlsafeB64decode data with
      | none => .error .binasciiError
      | some bytes => .ok (.attachment mimeTy mimeSub bytes (fn.getD ""))
    else
      -- for subpart in message.get("parts"): iterating None raises TypeError
      if hp then do
        let children ← parseEmailBodyList att msgId ps
        .ok (.container mimeTy mimeSub children)
      else .error .typeError
termination_by structural p => p

/-- The `for subpart in message.get("parts")` loop: reconstruct each
child in order, propagating the first failure. -/
def parseEmailBodyList (att : AttachmentStore) (msgId : String) :
    List GmailPart → Except PyErr (List Mime)
  | [] => .ok []
  | p :: rest => do
    let m ← parseEmailBody att msgId p
    let ms ← parseEmailBodyList att msgId rest
    .ok (m :: ms)
termination_by structural l => l

end

mutual

/-- Does every part of the tree declare a `mimeType` of the form
`type/subtype` (present, with exactly one `/`)?  Under this
precondition the mime-split error branch of `parse_email_body` is
unreachable. -/
def wellFormedMime : GmailPart → Bool
  | .mk mt _ _ _ _ ps =>
    (match splitMime mt with
     | .ok _ => true
     | .error _ => false) && wellFormedMimeList ps
termination_by structural p => p

/-- `wellFormedMime` over a list of sibling parts. -/
def wellFormedMimeList : List GmailPart → Bool
  | [] => true
  | p :: rest => wellFormedMime p && wellFormedMimeList rest
termination_by structural l => l

end

mutual

/-- A fuel bound sufficient to evaluate `parseEmailBodyFuel` on a part:
one step for the part plus fuel for its child list. -/
def partFuel : GmailPart → Nat
  | .mk _ _ _ _ _ ps => 1 + partsFuel ps
termination_by structural p => p

/-- Fuel bound for a list of sibling parts. -/
def partsFuel : List GmailPart → Nat
  | [] => 1
  | p :: rest => 1 + max (partFuel p) (partsFuel rest)
termination_by structural l => l

end

mutual

/-- Fuel-bounded evaluator for `parse_email_body`, recursing on the fuel
counter alone: `none` means the fuel ran out.  Used to state the
termination guarantee of the recursive reconstruction — with fuel at
least `partFuel part` it never runs out and agrees with
`parseEmailBody`. -/
def parseEmailBodyFuel (att : AttachmentStore) (msgId : String) :
    Nat → GmailPart → Option (Except PyErr Mime)
  | 0, _ => none
  | fuel + 1, .mk mt fn bd aid hp ps =>
    match splitMime mt with
    | .error e => some (.error e)
    | .ok (mimeTy, mimeSub) =>
      if mimeTy = "text" then
        some (do
          let data ← pySubscript bd
          let ascii ← pyEncodeAscii data
          match urlsafeB64decode ascii with
          | none => .error .binasciiError
          | some bytes =>
            match utf8Decode bytes with
            | none => .error .unicodeDecodeError
            | some cps => .ok (.text mimeSub (stringOfCodepoints cps)))
      else if truthy fn then
        some (do
          let data ←
            match bd with
            | some d => pure d
            | none => do
              let attachmentId ← pySubscript aid
              att msgId attachmentId
          match urlsafeB64decode data with
          | none => .error .binasciiError
          | some bytes => .ok (.attachment mimeTy mimeSub bytes (fn.getD "")))
      else
        if hp then
          match parseEmailBodyListFuel att msgId fuel ps with
          | none => none
          | some (.error e) => some (.error e)
          | some (.ok children) => some (.ok (.container mimeTy mimeSub children))
        else some (.error .typeError)
termination_by structural fuel => fuel

/-- Fuel-bounded evaluator for the child-list recursion. -/
def parseEmailBodyListFuel (att : AttachmentStore) (msgId : String) :
    Nat → List GmailPart → Option (Except PyErr (List Mime))
  | 0, _ => none
  | _ + 1, [] => some (.ok [])
  | fuel + 1, p :: rest =>
    match parseEmailBodyFuel att msgId fuel p with
    | none => none
    | some (.error e) => some (.error e)
    | some (.ok m) =>
      match parseEmailBodyListFuel att msgId fuel rest with
      | none => none
      | some (.error e) => some (.error e)
      | some (.ok ms) => some (.ok (m :: ms))
termination_by structural fuel => fuel

end

/-! ### The forwarding engine: `apply_forwarding_rule` -/

/-- One `{name, value}` element of the `payload.headers` list. -/
structure Header : Type where
  name : String
  value : String
  deriving Repr, DecidableEq

/-- A message returned by `users().messages().get(format="full")`, with
the fields the source reads. -/
structure FetchedMessage : Type where
  id : String
  threadId : String
  headers : List Header
  payload : GmailPart
  deriving Repr

/-- A forwarding rule, one entry of the dictionary produced by
`email_list_parser.parse`: `{"to": ..., "cc": [...]}`. -/
structure EmailList : Type where
  «to» : String
  cc : List String
  deriving Repr, DecidableEq

/-- The subject-extraction loop: scan the header list, keeping the value
of each header named `Subject` (the last one wins), defaulting to `""`. -/
def extractSubject (headers : List Header) : String :=
  headers.foldl (fun subject h => if h.name = "Subject" then h.value else subject) ""

/-- The headers set on the outbound `MIMEMultipart`, plus the attached
reconstructed body part. -/
structure ReplyMime : Type where
  from_ : String
  «to» : String
  cc : String
  inReplyTo : String
  references : String
  subject : String
  body : Mime
  deriving Repr

/-- Build the outbound `MIMEMultipart` exactly as the source does:
`from = account`, `to = email_list["to"]`, `cc = ",".join(cc)`,
`In-Reply-To = References = message id`, the extracted subject, and the
reconstructed part attached. -/
def buildReplyMime (account : String) (emailList : EmailList)
    (msg : FetchedMessage) (part : Mime) : ReplyMime :=
  { from_ := account
    «to» := emailList.«to»
    cc := String.intercalate "," emailList.cc
    inReplyTo := msg.id
    references := msg.id
    subject := extractSubject msg.headers
    body := part }

/-- Rendering of one MIME leaf for `message.as_string()`: the textual or
binary payload as bytes. -/
def mimePayloadBytes : Mime → List Nat
  | .text _ content => content.data.map Char.toNat
  | .attachment _ _ payload _ => payload
  | .container _ _ _ => []

/-- A byte-level serialization of the outbound message standing for
`message.as_string().encode()`: the header block set by the source
followed by the attached part's payload. -/
def replyAsBytes (r : ReplyMime) : List Nat :=
  (String.intercalate "\n"
    ["from: " ++ r.from_, "to: " ++ r.«to», "cc: " ++ r.cc,
     "In-Reply-To: " ++ r.inReplyTo, "References: " ++ r.references,
     "subject: " ++ r.subject, ""]).data.map Char.toNat
    ++ mimePayloadBytes r.body

/-- The `{'raw': ..., 'threadId': ...}` dictionary passed to the send
call. -/
structure RawReply : Type where
  raw : String
  threadId : String
  deriving Repr, DecidableEq

/-- `reply_message = {'raw': urlsafe_b64encode(message.as_string().encode()).decode(), 'threadId': ...}`. -/
def buildRawReply (r : ReplyMime) (threadId : String) : RawReply :=
  { raw := ⟨urlsafeB64encode (replyAsBytes r)⟩, threadId := threadId }

/-- The remote Gmail API surface used by one cycle, as an explicit
environment.  Each field gives the outcome of the corresponding blocking
call; `httpError` outcomes model transport failures raised as
`HttpError`. -/
structure CycleEnv : Type where
  /-- `users().messages().list(userId='me', labelIds=['UNREAD'])`:
  the listed unread message ids. -/
  listUnread : Except PyErr (List String)
  /-- The batched `users().messages().get(format="full")` call: per-item
  `(result, exception)` pairs collected by callback, or a transport
  failure of the whole batch. -/
  fetchBatch : List String → Except PyErr (List (Except PyErr FetchedMessage))
  /-- `users().messages().send(userId="me", body=reply).execute()`,
  keyed by the id of the message being replied to. -/
  send : String → RawReply → Except PyErr Unit
  /-- The attachment store for `parse_email_body`. -/
  attachments : AttachmentStore
  /-- The batched `users().messages().modify(...)` call removing the
  `UNREAD` label from the given ids. -/
  modifyBatch : List String → Except PyErr Unit

/-- Observable events of one cycle: a send call that returned
successfully, and the acknowledgment batch removing the `UNREAD` label
from a list of ids. -/
inductive Event : Type where
  | sendOk (id : String)
  | ackBatch (ids : List String)
  deriving Repr, DecidableEq

/-- The body of the inner `try` for one fetched message: extract the
subject, reconstruct the body, build and send the reply.  Returns the
events emitted (a `sendOk` on success) or the exception raised. -/
def processMessage (env : CycleEnv) (account : String) (emailList : EmailList)
    (msg : FetchedMessage) : Except PyErr Unit × List Event :=
  match parseEmailBody env.attachments msg.id msg.payload with
  | .error e => (.error e, [])
  | .ok part =>
    let reply := buildRawReply (buildReplyMime account emailList msg part) msg.threadId
    match env.send msg.id reply with
    | .error e => (.error e, [])
    | .ok _ => (.ok (), [.sendOk msg.id])

/-- The `for unread_email, exception in unread_emails` loop: items whose
fetch raised are skipped; for the rest the inner `try` runs and an
`except RuntimeError: continue` clause swallows only `RuntimeError` —
any other exception propagates, aborting the loop.  Returns
`processed_ids`, the events emitted, and the propagating exception if
any. -/
def processLoop (env : CycleEnv) (account : String) (emailList : EmailList) :
    List (Except PyErr FetchedMessage) → List String × List Event × Option PyErr
  | [] => ([], [], none)
  | item :: rest =>
    match item with
    | .error _ => processLoop env account emailList rest
    | .ok msg =>
      match processMessage env account emailList msg with
      | (.ok _, evs) =>
        let (pids, evs2, exc) := processLoop env account emailList rest
        (msg.id :: pids, evs ++ evs2, exc)
      | (.error e, evs) =>
        if e.isRuntimeError then processLoop env account emailList rest
        else ([], evs, some e)

/-- `apply_forwarding_rule(account_client, account, email_list)`: list
unread ids, batch-fetch them, process each message, then issue one
batch-modify removing the `UNREAD` label from all processed ids.  The
whole body sits in a `try ... except HttpError` that absorbs
`HttpError`; any other exception escapes the function.  Returns the
emitted events and the escaping exception if any. -/
def applyForwardingRule (env : CycleEnv) (account : String)
    (emailList : EmailList) : List Event × Option PyErr :=
  let inner : List Event × Option PyErr :=
    match env.listUnread with
    | .error e => ([], some e)
    | .ok ids =>
      match env.fetchBatch ids with
      | .error e => ([], some e)
      | .ok items =>
        match processLoop env account emailList items with
        | (_, evs, some e) => (evs, some e)
        | (pids, evs, none) =>
          match env.modifyBatch pids with
          | .error e => (evs ++ [.ackBatch pids], some e)
          | .ok _ => (evs ++ [.ackBatch pids], none)
  match inner with
  | (evs, some e) => if e.isHttpError then (evs, none) else (evs, some e)
  | (evs, none) => (evs, none)

/-- The per-tick account loop of `main`:
`for account, client in clients: apply_forwarding_rule(...)`.  Each
account's cycle runs in order; an exception escaping one cycle aborts
the remainder of the tick (there is no `try` around the loop body).
Returns the events of each cycle that ran, and the escaping exception if
any. -/
def runTick (rules : String → EmailList) :
    List (String × CycleEnv) → List (String × List Event) × Option PyErr
  | [] => ([], none)
  | (account, env) :: rest =>
    match applyForwardingRule env account (rules account) with
    | (evs, some e) => ([(account, evs)], some e)
    | (evs, none) =>
      let (rs, exc) := runTick rules rest
      ((account, evs) :: rs, exc)

/-- A cycle hits a `CycleFatalError`: its unread-listing call, its
batch-fetch call, or (after a loop that raises nothing uncaught) its
batch-modify call fails with a transport error (`HttpError`). -/
def hitsCycleFatal (env : CycleEnv) (account : String) (el : EmailList) : Prop :=
  env.listUnread = .error .httpError ∨
  (∃ ids, env.listUnread = .ok ids ∧ env.fetchBatch ids = .error .httpError) ∨
  (∃ ids items, env.listUnread = .ok ids ∧ env.fetchBatch ids = .ok items ∧
    (processLoop env account el items).2.2 = none ∧
    env.modifyBatch (processLoop env account el items).1 = .error .httpError)

/-! ### The scheduler loop of `main`

`dtime = datetime.now(TIMEZONE)` is sampled before the loop and again at
the start of each iteration; the guard
`while not (dtime.hour == 23 and dtime.minute >= 55)` tests the sample
left by the previous iteration, so the scheduler is a step relation on
the last sampled wall-clock time in the reference timezone. -/

/-- A sampled wall-clock time in the reference timezone (`TIMEZONE`),
reduced to the fields the guard reads. -/
structure Clock : Type where
  hour : Nat
  minute : Nat
  deriving Repr, DecidableEq

/-- The loop guard's cutoff window: `dtime.hour == 23 and dtime.minute >= 55`. -/
def inCutoff (t : Clock) : Bool :=
  t.hour = 23 ∧ 55 ≤ t.minute

/-- Scheduler state: `running t` holds the wall-clock time sampled last;
`stopped` is the state after the `while` loop exits (the process
terminates). -/
inductive SchedState : Type where
  | running (t : Clock)
  | stopped
  deriving Repr, DecidableEq

/-- One evaluation of the loop guard given the next wall-clock sample
`t'`: if the last sample falls in the cutoff window the loop exits with
no further tick; otherwise the body resamples the clock, performs one
tick (every account's cycle runs) and sleeps.  The second component
counts the ticks performed by this step.  `stopped` has no outgoing
transition: the step leaves it unchanged with zero ticks. -/
def schedStep (next : Clock) : SchedState → SchedState × Nat
  | .running t => if inCutoff t then (.stopped, 0) else (.running next, 1)
  | .stopped => (.stopped, 0)

/-- Total number of ticks the scheduler performs from a state, given the
stream of future wall-clock samples (one consumed per guard
evaluation). -/
def schedTicks : SchedState → List Clock → Nat
  | _, [] => 0
  | s, next :: rest =>
    let (s2, k) := schedStep next s
    k + schedTicks s2 rest

/-! ### `email_list_parser` -/

/-- Model of `email.utils.parseaddr` on the inputs this program feeds
it: an address of the form `Display <addr>` splits into display name and
address part; otherwise the whole (stripped) string is the address part;
the empty string yields `('', '')`. -/
def parseaddr (s : String) : String × String :=
  match pySplit '<' s with
  | [display, rest] =>
    match pySplit '>' rest with
    | [addr, _] => (pyStrip display, pyStrip addr)
    | _ => ("", pyStrip s)
  | _ => ("", pyStrip s)

/-- `validate_email(email)`: the heuristic accepting any value whose
`parseaddr` has a non-empty display name or a non-empty address part. -/
def validate_email (email : String) : Bool :=
  let addr := parseaddr email
  ¬(addr.1 = "" ∧ addr.2 = "")

/-- `lines[i]`: `IndexError` when the index is out of range. -/
def pyIndex (lines : List String) (i : Nat) : Except PyErr String :=
  match lines.get? i with
  | some s => .ok s
  | none => .error .indexError

/-- The header check
`not (lines[0] == "ACCOUNT" and lines[2] == "TO" and lines[4] == "CC")`
with Python's short-circuit evaluation: a later index is only read (and
can only raise `IndexError`) when every earlier conjunct held. -/
def headerCheckFails (lines : List String) : Except PyErr Bool := do
  let l0 ← pyIndex lines 0
  if l0 = "ACCOUNT" then do
    let l2 ← pyIndex lines 2
    if l2 = "TO" then do
      let l4 ← pyIndex lines 4
      pure (¬(l4 = "CC"))
    else pure true
  else pure true

/-- `email_lists[key] = value` on the dictionary modeled as an
association list: overwrite an existing binding, else append. -/
def dictInsert (key : String) (val : EmailList) :
    List (String × EmailList) → List (String × EmailList)
  | [] => [(key, val)]
  | (k, v) :: rest =>
    if k = key then (k, val) :: rest else (k, v) :: dictInsert key val rest

/-- The body of `parse`'s loop for one email-list file (its stripped
lines): drop the file when the header check fails; otherwise insert
`{lines[1]: {"to": lines[3], "cc": lines[5:]}}`, then run the
address-validation loop — whose `continue` only advances that inner
loop, so an invalid address is logged but the entry stays in the
dictionary. -/
def parseOneFile (acc : List (String × EmailList)) (lines : List String) :
    Except PyErr (List (String × EmailList)) := do
  if ← headerCheckFails lines then
    -- logger.error("Email list invalid! ... Skipping this email list."); continue
    pure acc
  else do
    let l1 ← pyIndex lines 1
    let l3 ← pyIndex lines 3
    let acc := dictInsert l1 ⟨l3, lines.drop 5⟩ acc
    -- for email in [lines[1], lines[3]] + lines[5:]:
    --     if not validate_email(email): log; continue   (inner loop only)
    pure acc

/-- `email_list_parser.parse()`, over the (stripped) line lists of the
files found in `email_lists/`: returns the account → rule dictionary. -/
def parse (files : List (List String)) :
    Except PyErr (List (String × EmailList)) :=
  files.foldlM parseOneFile []

/-! ### Concrete fixtures used by counterexamples and witnesses -/

/-- An attachment store with no inline data: every fetch fails with
`HttpError` (never consulted by the fixtures below). -/
def noAttachments : AttachmentStore := fun _ _ => .error .httpError

/-- A simple `text/plain` part with inline body data. -/
def textPart (data : String) : GmailPart :=
  .mk (some "text/plain") none (some data) none false []

/-- A fetched message whose body decodes to `"hello"`. -/
def msgHello : FetchedMessage :=
  { id := "m1", threadId := "t1", headers := [⟨"Subject", "greetings"⟩],
    payload := textPart "aGVsbG8=" }

/-- A fetched message whose text body data `"a"` is not valid base64, so
reconstruction raises `binascii.Error`. -/
def msgBadBase64 : FetchedMessage :=
  { id := "m2", threadId := "t2", headers := [], payload := textPart "a" }

/-- A third, well-formed fetched message, listed after the failing one. -/
def msgAfter : FetchedMessage :=
  { id := "m3", threadId := "t3", headers := [], payload := textPart "aGVsbG8=" }

/-- A concrete forwarding rule. -/
def rule1 : EmailList := ⟨"to@example.com", ["cc@example.com"]⟩

/-- A cycle in which the second of three fetched messages has a body
that is not valid base64, while every remote call succeeds. -/
def envBadMiddle : CycleEnv :=
  { listUnread := .ok ["m1", "m2", "m3"]
    fetchBatch := fun _ => .ok [.ok msgHello, .ok msgBadBase64, .ok msgAfter]
    send := fun _ _ => .ok ()
    attachments := noAttachments
    modifyBatch := fun _ => .ok () }

/-- A cycle with a single well-formed message and fully successful
remote calls. -/
def envOneGood : CycleEnv :=
  { listUnread := .ok ["m1"]
    fetchBatch := fun _ => .ok [.ok msgHello]
    send := fun _ _ => .ok ()
    attachments := noAttachments
    modifyBatch := fun _ => .ok () }

/-- A cycle whose unread-listing call fails with a transport error
(`HttpError`) — a `CycleFatalError`. -/
def envListFatal : CycleEnv :=
  { listUnread := .error .httpError
    fetchBatch := fun _ => .ok []
    send := fun _ _ => .ok ()
    attachments := noAttachments
    modifyBatch := fun _ => .ok () }

/-! ### Theorems -/

/-- Helper: once the scheduler has stopped, no further tick is ever
performed. -/
theorem schedTicks_stopped (ts : List Clock) : schedTicks .stopped ts = 0 := by
  induction ts with
  | nil => rfl
  | cons next rest ih => simp [schedTicks, schedStep, ih]

/-- Helper: a member of a part list needs no more fuel than the whole
list. -/
theorem partFuel_le_of_mem (c : GmailPart) :
    ∀ ps : List GmailPart, c ∈ ps → partFuel c ≤ partsFuel ps := by
  intro ps
  induction ps with
  | nil => intro h; cases h
  | cons p rest ih =>
    intro h
    rcases List.mem_cons.mp h with rfl | h2
    · simp only [partsFuel]; omega
    · have := ih h2
      simp only [partsFuel]; omega

/-- Helper: with fuel at least `partFuel`/`partsFuel`, the fuel-bounded
evaluator never runs out and agrees with `parseEmailBody` /
`parseEmailBodyList`. -/
theorem parseEmailBodyFuel_agrees (att : AttachmentStore) (msgId : String) :
    ∀ fuel : Nat,
      (∀ p, partFuel p ≤ fuel →
        parseEmailBodyFuel att msgId fuel p = some (parseEmailBody att msgId p)) ∧
      (∀ l, partsFuel l ≤ fuel →
        parseEmailBodyListFuel att msgId fuel l = some (parseEmailBodyList att msgId l)) := by
  intro fuel
  induction fuel with
  | zero =>
    constructor
    · intro p hp; cases p; simp [partFuel] at hp
    · intro l hl; cases l <;> simp [partsFuel] at hl
  | succ f ih =>
    constructor
    · intro p hp
      obtain ⟨mt, fn, bd, aid, hpflag, ps⟩ := p
      have hps : partsFuel ps ≤ f := by
        simp only [partFuel] at hp; omega
      simp only [parseEmailBodyFuel, parseEmailBody, bind, Except.bind]
      cases hmt : splitMime mt with
      | error e => simp
      | ok pr =>
        obtain ⟨t, st⟩ := pr
        by_cases ht : t = "text"
        · simp [ht]
        · simp only [ht, if_false]
          by_cases hfn : truthy fn
          · simp [hfn]
          · simp only [hfn, if_false]
            cases hpflag with
            | true =>
              rw [ih.2 ps hps]
              cases parseEmailBodyList att msgId ps with
              | error e => simp
              | ok cs => simp
            | false => simp
    · intro l hl
      cases l with
      | nil => simp [parseEmailBodyListFuel, parseEmailBodyList]
      | cons p rest =>
        have hp : partFuel p ≤ f := by simp only [partsFuel] at hl; omega
        have hr : partsFuel rest ≤ f := by simp only [partsFuel] at hl; omega
        simp only [parseEmailBodyListFuel, parseEmailBodyList, bind, Except.bind]
        rw [ih.1 p hp, ih.2 rest hr]
        cases parseEmailBody att msgId p with
        | error e => simp
        | ok m =>
          cases parseEmailBodyList att msgId rest with
          | error e => simp
          | ok ms => simp

/-- Helper: on a tree whose every part declares a well-formed
`type/subtype` mime type, the fuel-bounded evaluator never produces the
mime-split errors (`AttributeError` / `ValueError`), provided the
attachment store only fails with `HttpError`. -/
theorem fuel_wellFormed_no_mime_error (att : AttachmentStore) (msgId : String)
    (hatt : ∀ mid aid e, att mid aid = .error e → e = .httpError) :
    ∀ fuel : Nat,
      (∀ p, wellFormedMime p = true → ∀ e,
        parseEmailBodyFuel att msgId fuel p = some (.error e) →
        e ≠ .attributeError ∧ e ≠ .valueError) ∧
      (∀ l, wellFormedMimeList l = true → ∀ e,
        parseEmailBodyListFuel att msgId fuel l = some (.error e) →
        e ≠ .attributeError ∧ e ≠ .valueError) := by
  intro fuel
  induction fuel with
  | zero =>
    constructor
    · intro p _ e h; simp [parseEmailBodyFuel] at h
    · intro l _ e h; simp [parseEmailBodyListFuel] at h
  | succ f ih =>
    constructor
    · intro p hwf e h
      obtain ⟨mt, fn, bd, aid, hpflag, ps⟩ := p
      simp only [wellFormedMime, Bool.and_eq_true] at hwf
      obtain ⟨hmt, hps⟩ := hwf
      cases hsp : splitMime mt with
      | error e2 => rw [hsp] at hmt; simp at hmt
      | ok pr =>
        obtain ⟨t, st⟩ := pr
        simp only [parseEmailBodyFuel, hsp, bind, Except.bind] at h
        by_cases ht : t = "text"
        · simp only [ht, if_pos, Option.some.injEq] at h
          cases bd with
          | none =>
            simp only [pySubscript, bind, Except.bind, Except.error.injEq] at h
            subst h; exact ⟨by simp, by simp⟩
          | some d =>
            simp only [pySubscript, bind, Except.bind] at h
            by_cases hd : d.data.all (fun c => c.toNat < 128)
            · have he : pyEncodeAscii d = .ok d := by simp [pyEncodeAscii, hd]
              simp only [he, bind, Except.bind] at h
              cases hb : urlsafeB64decode d with
              | none =>
                simp only [hb, Except.error.injEq] at h
                subst h; exact ⟨by simp, by simp⟩
              | some bytes =>
                simp only [hb] at h
                cases hu : utf8Decode bytes with
                | none =>
                  simp only [hu, Except.error.injEq] at h
                  subst h; exact ⟨by simp, by simp⟩
                | some cps => simp [hu] at h
            · have he : pyEncodeAscii d = .error .unicodeEncodeError := by
                simp [pyEncodeAscii, hd]
              simp only [he, bind, Except.bind, Except.error.injEq] at h
              subst h; exact ⟨by simp, by simp⟩
        · rw [if_neg ht] at h
          by_cases hfn : truthy fn = true
          · rw [if_pos hfn] at h
            rw [Option.some.injEq] at h
            have hdata : ∀ d : String,
                ((match urlsafeB64decode d with
                  | none => Except.error PyErr.binasciiError
                  | some bytes =>
                      Except.ok (Mime.attachment t st bytes (fn.getD ""))) =
                  Except.error e) →
                e ≠ .attributeError ∧ e ≠ .valueError := by
              intro d hh
              cases hb : urlsafeB64decode d with
              | none =>
                simp only [hb, Except.error.injEq] at hh
                subst hh; exact ⟨by simp, by simp⟩
              | some bytes => simp [hb] at hh
            cases bd with
            | some d =>
              simp only [bind, Except.bind, pure, Except.pure] at h
              exact hdata d h
            | none =>
              cases aid with
              | none =>
                simp only [pySubscript, bind, Except.bind, Except.error.injEq] at h
                subst h; exact ⟨by simp, by simp⟩
              | some a =>
                simp only [pySubscript, bind, Except.bind] at h
                cases hat : att msgId a with
                | error e2 =>
                  simp only [hat, Except.error.injEq] at h
                  subst h
                  have := hatt msgId a _ hat
                  subst this
                  exact ⟨by simp, by simp⟩
                | ok d =>
                  simp only [hat] at h
                  exact hdata d h
          · rw [if_neg hfn] at h
            cases hpflag with
            | true =>
              rw [if_pos rfl] at h
              cases hlist : parseEmailBodyListFuel att msgId f ps with
              | none => simp [hlist] at h
              | some r =>
                simp only [hlist] at h
                cases r with
                | error e2 =>
                  simp only [Option.some.injEq, Except.error.injEq] at h
                  subst h
                  exact ih.2 ps hps _ hlist
                | ok cs => simp at h
            | false =>
              rw [if_neg (by simp)] at h
              simp only [Option.some.injEq, Except.error.injEq] at h
              subst h; exact ⟨by simp, by simp⟩
    · intro l hwf e h
      cases l with
      | nil => simp [parseEmailBodyListFuel] at h
      | cons p rest =>
        simp only [wellFormedMimeList, Bool.and_eq_true] at hwf
        simp only [parseEmailBodyListFuel] at h
        cases hp1 : parseEmailBodyFuel att msgId f p with
        | none => simp [hp1] at h
        | some r =>
          simp only [hp1] at h
          cases r with
          | error e2 =>
            simp only [Option.some.injEq, Except.error.injEq] at h
            subst h
            exact ih.1 p hwf.1 _ hp1
          | ok m =>
            cases hr : parseEmailBodyListFuel att msgId f rest with
            | none => simp [hr] at h
            | some r2 =>
              simp only [hr] at h
              cases r2 with
              | error e2 =>
                simp only [Option.some.injEq, Except.error.injEq] at h
                subst h
                exact ih.2 rest hwf.2 _ hr
              | ok ms => simp at h

/-- Helper: a successful `processMessage` emitted exactly the `sendOk`
event for its message, and its send call returned successfully. -/
theorem processMessage_ok_inv (env : CycleEnv) (account : String) (el : EmailList)
    (msg : FetchedMessage) (u : Unit) (evs : List Event)
    (h : processMessage env account el msg = (.ok u, evs)) :
    evs = [.sendOk msg.id] ∧ ∃ r, env.send msg.id r = .ok () := by
  unfold processMessage at h
  cases hp : parseEmailBody env.attachments msg.id msg.payload with
  | error e => simp [hp] at h
  | ok part =>
    simp only [hp] at h
    cases hs : env.send msg.id
        (buildRawReply (buildReplyMime account el msg part) msg.threadId) with
    | error e => simp [hs] at h
    | ok v =>
      simp only [hs] at h
      injection h with h1 h2
      exact ⟨h2.symm, ⟨_, hs⟩⟩

/-- Helper: a failing `processMessage` emitted no event. -/
theorem processMessage_error_inv (env : CycleEnv) (account : String) (el : EmailList)
    (msg : FetchedMessage) (e : PyErr) (evs : List Event)
    (h : processMessage env account el msg = (.error e, evs)) :
    evs = [] := by
  unfold processMessage at h
  cases hp : parseEmailBody env.attachments msg.id msg.payload with
  | error e2 =>
    simp only [hp] at h
    injection h with h1 h2
    exact h2.symm
  | ok part =>
    simp only [hp] at h
    cases hs : env.send msg.id
        (buildRawReply (buildReplyMime account el msg part) msg.threadId) with
    | error e2 =>
      simp only [hs] at h
      injection h with h1 h2
      exact h2.symm
    | ok v => simp [hs] at h

/-- Helper: the per-message loop emits exactly one `sendOk` event per
processed id, in order, and every processed id's send call returned
successfully. -/
theorem processLoop_events (env : CycleEnv) (account : String) (el : EmailList) :
    ∀ items : List (Except PyErr FetchedMessage),
      (processLoop env account el items).2.1 =
        (processLoop env account el items).1.map Event.sendOk ∧
      ∀ id ∈ (processLoop env account el items).1,
        ∃ r, env.send id r = .ok () := by
  intro items
  induction items with
  | nil => simp [processLoop]
  | cons item rest ih =>
    cases item with
    | error e => simpa [processLoop] using ih
    | ok msg =>
      cases hpm : processMessage env account el msg with
      | mk res evs =>
        cases res with
        | error e =>
          have hevs := processMessage_error_inv env account el msg e evs hpm
          subst hevs
          by_cases hre : e.isRuntimeError = true
          · simpa [processLoop, hpm, hre] using ih
          · simp [processLoop, hpm, hre]
        | ok u =>
          obtain ⟨hevs, hsend⟩ := processMessage_ok_inv env account el msg u evs hpm
          subst hevs
          rcases hrec : processLoop env account el rest with ⟨pids, evs2, exc⟩
          rw [hrec] at ih
          have h1 : evs2 = List.map Event.sendOk pids := ih.1
          constructor
          · simp [processLoop, hpm, hrec, h1]
          · intro id hid
            simp only [processLoop, hpm, hrec] at hid
            rcases List.mem_cons.mp hid with rfl | h2
            · exact hsend
            · exact ih.2 id h2

/-- C5: within one cycle, the acknowledgment batch — when one is issued
at all — is the single final event, issued only after all sends of the
cycle: its ids are exactly the successfully sent ids in order, and each
of them had its send call return successfully.  In particular no id is
acknowledged before or between sends, and no batch is issued more than
once. -/
theorem C5_ack_only_after_sends (env : CycleEnv) (account : String)
    (el : EmailList) (ids : List String)
    (h : Event.ackBatch ids ∈ (applyForwardingRule env account el).1) :
    (applyForwardingRule env account el).1 =
      ids.map Event.sendOk ++ [Event.ackBatch ids] ∧
    ∀ id ∈ ids, ∃ r, env.send id r = .ok () := by
  have hpl := processLoop_events env account el
  simp only [applyForwardingRule] at h ⊢
  cases hl : env.listUnread with
  | error e =>
    by_cases he : e.isHttpError = true <;> simp [hl, he] at h
  | ok idsL =>
    cases hf : env.fetchBatch idsL with
    | error e =>
      by_cases he : e.isHttpError = true <;> simp [hl, hf, he] at h
    | ok items =>
      rcases hloop : processLoop env account el items with ⟨pids, evs, exc⟩
      have hev : evs = pids.map Event.sendOk := by
        have h1 := (hpl items).1
        rw [hloop] at h1
        exact h1
      have hsends : ∀ id ∈ pids, ∃ r, env.send id r = .ok () := by
        intro id hid
        have h2 := (hpl items).2
        rw [hloop] at h2
        exact h2 id hid
      cases exc with
      | some e =>
        simp only [hl, hf, hloop] at h
        by_cases he : e.isHttpError = true <;>
          simp only [he, if_true, if_false, ite_true, ite_false] at h <;>
          · subst hev
            simp [List.mem_map] at h
      | none =>
        cases hmod : env.modifyBatch pids with
        | error e =>
          simp only [hl, hf, hloop, hmod] at h ⊢
          subst hev
          by_cases he : e.isHttpError = true
          all_goals simp only [he, if_true, if_false, ite_true, ite_false] at h ⊢
          all_goals
            rcases List.mem_append.mp h with hin | hin
          · simp [List.mem_map] at hin
          · have hid2 : ids = pids := by simpa using hin
            subst hid2
            exact ⟨rfl, hsends⟩
          · simp [List.mem_map] at hin
          · have hid2 : ids = pids := by simpa using hin
            subst hid2
            exact ⟨rfl, hsends⟩
        | ok v =>
          simp only [hl, hf, hloop, hmod] at h ⊢
          subst hev
          rcases List.mem_append.mp h with hin | hin
          · simp [List.mem_map] at hin
          · have hid2 : ids = pids := by simpa using hin
            subst hid2
            exact ⟨rfl, hsends⟩

/-- C5, witness: a cycle with one fetched message and successful calls
issues exactly one acknowledgment batch, after the send. -/
theorem C5_ack_only_after_sends_witness :
    (applyForwardingRule envOneGood "account@example.com" rule1).1 =
      ["m1"].map Event.sendOk ++ [Event.ackBatch ["m1"]] ∧
    ∀ id ∈ ["m1"], ∃ r, envOneGood.send id r = .ok () :=
  C5_ack_only_after_sends envOneGood "account@example.com" rule1 ["m1"] (by decide)

/-- Helper: a cycle that hits a `CycleFatalError` has it absorbed by the
`except HttpError` handler of `apply_forwarding_rule`: nothing escapes
the function. -/
theorem fatal_absorbed (env : CycleEnv) (account : String) (el : EmailList)
    (h : hitsCycleFatal env account el) :
    (applyForwardingRule env account el).2 = none := by
  rcases h with h1 | ⟨ids, h1, h2⟩ | ⟨ids, items, h1, h2, h3, h4⟩
  · simp [applyForwardingRule, h1, PyErr.isHttpError]
  · simp [applyForwardingRule, h1, h2, PyErr.isHttpError]
  · rcases hloop : processLoop env account el items with ⟨pids, evs, exc⟩
    rw [hloop] at h3 h4
    simp only at h3 h4
    subst h3
    simp [applyForwardingRule, h1, h2, hloop, h4, PyErr.isHttpError]

/-- Helper: when no cycle lets an exception escape, the tick loop runs
every account's cycle, in order. -/
theorem runTick_runs_all (rules : String → EmailList) :
    ∀ l : List (String × CycleEnv),
      (∀ p ∈ l, (applyForwardingRule p.2 p.1 (rules p.1)).2 = none) →
      (runTick rules l).1.map Prod.fst = l.map Prod.fst := by
  intro l
  induction l with
  | nil => intro _; rfl
  | cons hd tl ih =>
    intro hall
    obtain ⟨account, env⟩ := hd
    have hhd := hall (account, env) (List.mem_cons_self _ _)
    rcases happ : applyForwardingRule env account (rules account) with ⟨evs, exc⟩
    rw [happ] at hhd
    simp only at hhd
    subst hhd
    have hrest := ih (fun p hp => hall p (List.mem_cons_of_mem _ hp))
    rcases hrt : runTick rules tl with ⟨rs, exc2⟩
    rw [hrt] at hrest
    simp only [runTick, happ, hrt]
    simp [hrest]

/-- C7: a `CycleFatalError` — a listing, batch-fetch, or batch-modify
transport failure — during account X's cycle aborts only the remainder
of X's own cycle: nothing escapes `apply_forwarding_rule`, so when the
other cycles of the tick let nothing escape either, every account of
the tick (including every account after X) still has its cycle run. -/
theorem C7_cycle_isolation (rules : String → EmailList)
    (pre post : List (String × CycleEnv)) (x : String × CycleEnv)
    (hx : hitsCycleFatal x.2 x.1 (rules x.1))
    (hothers : ∀ p ∈ pre ++ post,
      (applyForwardingRule p.2 p.1 (rules p.1)).2 = none) :
    (applyForwardingRule x.2 x.1 (rules x.1)).2 = none ∧
    (runTick rules (pre ++ x :: post)).1.map Prod.fst =
      (pre ++ x :: post).map Prod.fst := by
  have habs := fatal_absorbed x.2 x.1 (rules x.1) hx
  refine ⟨habs, runTick_runs_all rules _ ?_⟩
  intro p hp
  rcases List.mem_append.mp hp with hp1 | hp2
  · exact hothers p (List.mem_append.mpr (Or.inl hp1))
  · rcases List.mem_cons.mp hp2 with rfl | hp3
    · exact habs
    · exact hothers p (List.mem_append.mpr (Or.inr hp3))

/-- C7, witness: a listing transport failure for the first account does
not prevent the second account's cycle from running. -/
theorem C7_cycle_isolation_witness :
    (applyForwardingRule envListFatal "a@example.com" rule1).2 = none ∧
    (runTick (fun _ => rule1)
        [("a@example.com", envListFatal),
         ("b@example.com", envOneGood)]).1.map Prod.fst =
      ["a@example.com", "b@example.com"] :=
  C7_cycle_isolation (fun _ => rule1) [] [("b@example.com", envOneGood)]
    ("a@example.com", envListFatal) (Or.inl rfl) (by decide)

/-- Helper: the subject-extraction fold leaves its accumulator unchanged
when no header is named `Subject`. -/
theorem foldl_subject_const :
    ∀ headers : List Header, (∀ hd ∈ headers, hd.name ≠ "Subject") →
    ∀ init : String,
      headers.foldl
        (fun subject hd => if hd.name = "Subject" then hd.value else subject)
        init = init := by
  intro headers
  induction headers with
  | nil => intro _ init; rfl
  | cons hd tl ih =>
    intro h init
    simp only [List.foldl_cons]
    rw [if_neg (h hd (List.mem_cons_self _ _))]
    exact ih (fun x hx => h x (List.mem_cons_of_mem _ hx)) init

/-- C8: for every successfully reconstructed message, the outbound
message is built with `from = account`, `to = rule.to`, `cc = rule.cc`
joined with commas, `In-Reply-To` and `References` both equal to the
original message id, the extracted subject (empty when no `Subject`
header is present), and the reconstructed body attached; what is sent
is the URL-safe base64 encoding of the serialized message together with
the original `threadId`. -/
theorem C8_outbound_message (env : CycleEnv) (account : String)
    (el : EmailList) (msg : FetchedMessage) (part : Mime)
    (hpart : parseEmailBody env.attachments msg.id msg.payload = .ok part) :
    (buildReplyMime account el msg part).from_ = account ∧
    (buildReplyMime account el msg part).«to» = el.«to» ∧
    (buildReplyMime account el msg part).cc = String.intercalate "," el.cc ∧
    (buildReplyMime account el msg part).inReplyTo = msg.id ∧
    (buildReplyMime account el msg part).references = msg.id ∧
    (buildReplyMime account el msg part).subject = extractSubject msg.headers ∧
    ((∀ hd ∈ msg.headers, hd.name ≠ "Subject") →
      (buildReplyMime account el msg part).subject = "") ∧
    (buildReplyMime account el msg part).body = part ∧
    (buildRawReply (buildReplyMime account el msg part) msg.threadId).raw =
      String.mk (urlsafeB64encode (replyAsBytes (buildReplyMime account el msg part))) ∧
    (buildRawReply (buildReplyMime account el msg part) msg.threadId).threadId =
      msg.threadId ∧
    processMessage env account el msg =
      (match env.send msg.id
          (buildRawReply (buildReplyMime account el msg part) msg.threadId) with
       | .error e => (.error e, [])
       | .ok _ => (.ok (), [.sendOk msg.id])) := by
  refine ⟨rfl, rfl, rfl, rfl, rfl, rfl, ?_, rfl, rfl, rfl, ?_⟩
  · intro h
    simpa [buildReplyMime, extractSubject] using foldl_subject_const msg.headers h ""
  · unfold processMessage
    rw [hpart]

/-- C8, witness at a concrete message with no `Subject` header. -/
theorem C8_outbound_message_witness :
    (buildReplyMime "account@example.com" rule1 msgAfter (.text "plain" "hello")).from_ =
      "account@example.com" ∧
    (buildReplyMime "account@example.com" rule1 msgAfter (.text "plain" "hello")).subject =
      "" ∧
    (buildRawReply (buildReplyMime "account@example.com" rule1 msgAfter
        (.text "plain" "hello")) msgAfter.threadId).threadId = msgAfter.threadId := by
  obtain ⟨h1, -, -, -, -, -, h7, -, -, h10, -⟩ :=
    C8_outbound_message envOneGood "account@example.com" rule1 msgAfter
      (.text "plain" "hello") (by rfl)
  exact ⟨h1, h7 (by simp [msgAfter]), h10⟩

/-- C9: reconstruction terminates on every finite part tree.  Each
recursive call of `parse_email_body` is on a container child, which is
a strict substructure of its parent (`partFuel` strictly decreases into
every member of the `parts` list); consequently the fuel-bounded
evaluator, given fuel equal to the part's size bound, never runs out
and agrees with the total recursive function `parseEmailBody` — the
reconstruction of the tagged `Text`/`Attachment`/`Container` result is
total. -/
theorem C9_reconstruction_total (att : AttachmentStore) (msgId : String) :
    (∀ (mt fn bd aid : Option String) (hp : Bool) (ps : List GmailPart),
      ∀ c ∈ ps, partFuel c < partFuel (.mk mt fn bd aid hp ps)) ∧
    (∀ (p : GmailPart) (fuel : Nat), partFuel p ≤ fuel →
      parseEmailBodyFuel att msgId fuel p = some (parseEmailBody att msgId p)) := by
  constructor
  · intro mt fn bd aid hp ps c hc
    have := partFuel_le_of_mem c ps hc
    simp only [partFuel]; omega
  · intro p fuel hf
    exact (parseEmailBodyFuel_agrees att msgId fuel).1 p hf

/-- C9, witness: a two-level container evaluates within its fuel bound,
and its child is strictly smaller. -/
theorem C9_reconstruction_total_witness :
    partFuel (textPart "aGVsbG8=") <
      partFuel (.mk (some "multipart/mixed") none none none true
        [textPart "aGVsbG8="]) ∧
    parseEmailBodyFuel noAttachments "m" 4
        (.mk (some "multipart/mixed") none none none true [textPart "aGVsbG8="]) =
      some (parseEmailBody noAttachments "m"
        (.mk (some "multipart/mixed") none none none true [textPart "aGVsbG8="])) :=
  ⟨(C9_reconstruction_total noAttachments "m").1 (some "multipart/mixed")
      none none none true [textPart "aGVsbG8="] (textPart "aGVsbG8=") (by simp),
   (C9_reconstruction_total noAttachments "m").2
      (.mk (some "multipart/mixed") none none none true [textPart "aGVsbG8="]) 4
      (by decide)⟩

/-- C10: reconstruction is partial in the declared content type — a
part whose `mimeType` is absent fails with `AttributeError` and one
whose `mimeType` does not split into exactly a type and a subtype at
`/` fails with `ValueError`, in both cases before any branch is taken
(whatever the other fields hold); and under the precondition that every
part of the tree declares a `type/subtype` mime type (and the
attachment store fails only with transport errors), those two error
outcomes are unreachable. -/
theorem C10_mime_type_required (att : AttachmentStore) (msgId : String)
    (hatt : ∀ mid aid e, att mid aid = .error e → e = .httpError) :
    (∀ (fn bd aid : Option String) (hp : Bool) (ps : List GmailPart),
      parseEmailBody att msgId (.mk none fn bd aid hp ps) = .error .attributeError) ∧
    (∀ (s : String) (fn bd aid : Option String) (hp : Bool) (ps : List GmailPart),
      (pySplit '/' s).length ≠ 2 →
      parseEmailBody att msgId (.mk (some s) fn bd aid hp ps) = .error .valueError) ∧
    (∀ p, wellFormedMime p = true → ∀ e, parseEmailBody att msgId p = .error e →
      e ≠ .attributeError ∧ e ≠ .valueError) := by
  refine ⟨?_, ?_, ?_⟩
  · intro fn bd aid hp ps
    simp [parseEmailBody, splitMime, bind, Except.bind]
  · intro s fn bd aid hp ps hlen
    have hs : splitMime (some s) = .error .valueError := by
      simp only [splitMime]
      split
      · rename_i t st heq
        have h2 : (pySplit '/' s).length = 2 := by rw [heq]; rfl
        exact absurd h2 hlen
      · rfl
    simp [parseEmailBody, hs, bind, Except.bind]
  · intro p hwf e herr
    have hag := (parseEmailBodyFuel_agrees att msgId (partFuel p)).1 p (Nat.le_refl _)
    rw [herr] at hag
    exact (fuel_wellFormed_no_mime_error att msgId hatt (partFuel p)).1 p hwf e hag

/-- C10, witness: the error branches fire at concrete malformed inputs,
and a well-formed container that fails for a non-mime reason (absent
`parts` key) raises neither mime-split error. -/
theorem C10_mime_type_required_witness :
    parseEmailBody noAttachments "m" (.mk none none none none false []) =
      .error .attributeError ∧
    parseEmailBody noAttachments "m" (.mk (some "text") none none none false []) =
      .error .valueError ∧
    (PyErr.typeError ≠ PyErr.attributeError ∧ PyErr.typeError ≠ PyErr.valueError) :=
  ⟨(C10_mime_type_required noAttachments "m"
      (by intro mid aid e h; simp [noAttachments] at h; exact h.symm)).1 none none none false [],
   (C10_mime_type_required noAttachments "m"
      (by intro mid aid e h; simp [noAttachments] at h; exact h.symm)).2.1 "text" none none none
      false [] (by decide),
   (C10_mime_type_required noAttachments "m"
      (by intro mid aid e h; simp [noAttachments] at h; exact h.symm)).2.2
      (.mk (some "multipart/mixed") none none none false []) (by decide)
      .typeError (by rfl)⟩

/-- C1, behavior of the code at the failing input: in a cycle of three
fetched messages where the second one's body is not valid base64,
reconstruction raises `binascii.Error`, which the
`except RuntimeError` clause does not catch — the third message is
never processed, no acknowledgment batch is issued, and the exception
escapes `apply_forwarding_rule` (only `HttpError` is caught there),
contradicting the claim that only the failing message is skipped. -/
theorem C1_failing_input_eval :
    applyForwardingRule envBadMiddle "account@example.com" rule1 =
      ([.sendOk "m1"], some .binasciiError) := by
  rfl

/-- C2, counterexample: a `multipart/mixed` part whose `parts` key is
present but holds an empty list is reconstructed successfully into a
container with zero children — it does not fail, contradicting the
claim that every container part with zero children fails with
`MalformedMessageError`. -/
theorem C2_counterexample :
    parseEmailBody noAttachments "m"
        (.mk (some "multipart/mixed") none none none true []) =
      .ok (.container "multipart" "mixed" []) := by
  rfl

/-- C2, amended: a container part (non-textual declared type, no
filename) whose `parts` key is absent fails reconstruction with an
error (`TypeError`, the code's manifestation of
`MalformedMessageError`); but a container part whose `parts` key is
present with an empty list silently succeeds, returning a container
with zero children. -/
theorem C2_amended_container (att : AttachmentStore) (msgId : String)
    (mt fn bd aid : Option String) (ps : List GmailPart) (t st : String)
    (hmt : splitMime mt = .ok (t, st)) (ht : t ≠ "text")
    (hfn : truthy fn = false) :
    parseEmailBody att msgId (.mk mt fn bd aid false ps) = .error .typeError ∧
    parseEmailBody att msgId (.mk mt fn bd aid true []) =
      .ok (.container t st []) := by
  constructor
  · simp [parseEmailBody, hmt, ht, hfn, bind, Except.bind]
  · simp [parseEmailBody, parseEmailBodyList, hmt, ht, hfn, bind, Except.bind]

/-- C2, witness for the amended theorem at a concrete input. -/
theorem C2_amended_container_witness :
    parseEmailBody noAttachments "m"
        (.mk (some "multipart/mixed") none none none false []) =
      .error .typeError ∧
    parseEmailBody noAttachments "m"
        (.mk (some "multipart/mixed") none none none true []) =
      .ok (.container "multipart" "mixed" []) :=
  C2_amended_container noAttachments "m" (some "multipart/mixed") none none none
    [] "multipart" "mixed" (by rfl) (by decide) (by rfl)

/-- C3, behavior of the code at the failing input: a rule file whose
`TO` line is empty (an address failing `validate_email`) is *not*
dropped — `parse` still returns the entry for the account, because the
entry is inserted before validation and the `continue` in the
validation loop only advances the inner loop, even though the logged
message says the list is skipped.  This contradicts the claim that a
rule is yielded only when all of its addresses validate. -/
theorem C3_failing_input_eval :
    parse [["ACCOUNT", "a@b.com", "TO", "", "CC"]] =
      .ok [("a@b.com", { «to» := "", cc := [] })] ∧
    validate_email "" = false := by
  constructor
  · rfl
  · rfl

/-- C6: the scheduler as a step relation on the sampled wall-clock time:
from a sample one minute before the cutoff window (23:54) at least one
further tick is performed; from any sample inside the cutoff window
(hour 23, minute ≥ 55) the loop exits with zero further ticks; and the
`stopped` state has no transition back to `running`. -/
theorem C6_scheduler_boundary (t next : Clock) (ts : List Clock)
    (hcut : t.hour = 23 ∧ 55 ≤ t.minute) :
    1 ≤ schedTicks (.running ⟨23, 54⟩) (next :: ts) ∧
    schedStep next (.running t) = (.stopped, 0) ∧
    schedTicks (.running t) ts = 0 ∧
    schedStep next .stopped = (.stopped, 0) := by
  have hin : inCutoff t = true := by
    simp [inCutoff, hcut.1, hcut.2]
  refine ⟨?_, ?_, ?_, rfl⟩
  · simp [schedTicks, schedStep, inCutoff]
  · simp [schedStep, hin]
  · cases ts with
    | nil => rfl
    | cons n rest => simp [schedTicks, schedStep, hin, schedTicks_stopped]

/-- C4: reconstruction classifies every part by the fixed branch
priority of the source — the text check (declared top-level type equal
to `"text"`) first, the filename check second, the container fallback
last.  Whenever reconstruction of a part succeeds: a textual declared
type yields a `TextPart` (even if the part also carries a filename — it
is never an `AttachmentPart`); a non-textual type with a filename
yields an `AttachmentPart`; a non-textual type without a filename
yields a `ContainerPart`. -/
theorem C4_branch_priority (att : AttachmentStore) (msgId : String)
    (mt fn bd aid : Option String) (hp : Bool) (ps : List GmailPart)
    (t st : String) (hmt : splitMime mt = .ok (t, st)) :
    (t = "text" → ∀ m, parseEmailBody att msgId (.mk mt fn bd aid hp ps) = .ok m →
      ∃ content, m = .text st content) ∧
    (t ≠ "text" → truthy fn = true →
      ∀ m, parseEmailBody att msgId (.mk mt fn bd aid hp ps) = .ok m →
      ∃ bytes, m = .attachment t st bytes (fn.getD "")) ∧
    (t ≠ "text" → truthy fn = false →
      ∀ m, parseEmailBody att msgId (.mk mt fn bd aid hp ps) = .ok m →
      ∃ children, m = .container t st children) := by
  refine ⟨?_, ?_, ?_⟩
  · rintro rfl m h
    simp only [parseEmailBody, hmt, bind, Except.bind, if_pos] at h
    repeat' split at h
    all_goals simp_all
    all_goals exact ⟨_, h.symm⟩
  · intro ht hfn m h
    simp only [parseEmailBody, hmt, bind, Except.bind] at h
    rw [if_neg (by simpa using ht)] at h
    simp only [hfn, if_pos] at h
    repeat' split at h
    all_goals simp_all
    all_goals exact ⟨_, h.symm⟩
  · intro ht hfn m h
    simp only [parseEmailBody, hmt, bind, Except.bind] at h
    rw [if_neg (by simpa using ht)] at h
    simp only [hfn] at h
    repeat' split at h
    all_goals simp_all
    all_goals exact ⟨_, h.symm⟩

/-- C4, witness: a `text/plain` part that also carries a filename is
reconstructed as a `TextPart`. -/
theorem C4_branch_priority_witness :
    ∃ content,
      Mime.text "plain" "hello" = Mime.text "plain" content :=
  (C4_branch_priority noAttachments "m" (some "text/plain") (some "f.txt")
      (some "aGVsbG8=") none false [] "text" "plain" (by rfl)).1 rfl
    (.text "plain" "hello") (by rfl)

/-- C6, witness at a concrete cutoff sample. -/
theorem C6_scheduler_boundary_witness :
    1 ≤ schedTicks (.running ⟨23, 54⟩) (⟨23, 54⟩ :: []) ∧
    schedStep ⟨23, 56⟩ (.running ⟨23, 55⟩) = (.stopped, 0) ∧
    schedTicks (.running ⟨23, 55⟩) [] = 0 ∧
    schedStep ⟨23, 56⟩ .stopped = (.stopped, 0) :=
  C6_scheduler_boundary ⟨23, 55⟩ ⟨23, 56⟩ [] (by decide)

end EzFund
